import Mathlib

/-!
Shallow embedding of the analytics engine in `src/utils/logic.ts`.

Conventions of the embedding:
* JavaScript numbers are modelled as rationals (`ℚ`); where non-finite values
  matter (`computeROI`) a wrapper type `JSNum` with `nan` and signed infinities
  is used, mirroring `Number.isFinite` checks in the source.
* ISO-8601 instant strings (`createdAt`, `completedAt`) are modelled by their
  epoch-millisecond value (`ℤ`), which is exactly what the source extracts from
  them via `new Date(s).getTime()`.
* `Number(x.toFixed(2))` is modelled by `toFixed2` (nearest multiple of `1/100`,
  ties towards plus infinity, per the ECMAScript `toFixed` specification) and
  `Math.round` by `jsRound` (floor of `x + 1/2`).
* `Array.prototype.sort` with a consistent comparator `cmp` is, per ES2019, a
  stable sort whose output is pairwise ordered by `cmp a b ≤ 0`; it is embedded
  as the stable `List.mergeSort` with the Boolean relation `cmp a b ≤ 0`.
* All functions are total Lean functions, reflecting that the source never
  throws on numeric input.
-/

namespace TaskGlitch

/-- A JavaScript number: a finite rational, `NaN`, or a signed infinity. -/
inductive JSNum where
  | finite (q : ℚ)
  | nan
  | posInf
  | negInf
deriving DecidableEq, Repr

/-- Embedding of `Number.isFinite x`. -/
def JSNum.isFinite : JSNum → Bool
  | .finite _ => true
  | _ => false

/-- The JavaScript comparison `x <= 0` (false on `NaN`). -/
def JSNum.leZero : JSNum → Bool
  | .finite q => decide (q ≤ 0)
  | .negInf => true
  | _ => false

/-- The rational value of a finite `JSNum` (junk value `0` otherwise). -/
def JSNum.toQ : JSNum → ℚ
  | .finite q => q
  | _ => 0

/-- Embedding of `Number(x.toFixed(2))`: the multiple of `1/100` nearest to `x`,
ties resolved towards plus infinity (the larger candidate). -/
def toFixed2 (q : ℚ) : ℚ := (⌊q * 100 + 1 / 2⌋ : ℚ) / 100

/-- Embedding of `Math.round`, namely `⌊x + 1/2⌋` (round half towards plus infinity). -/
def jsRound (q : ℚ) : ℤ := ⌊q + 1 / 2⌋

/-- The `Priority` string union `High`, `Medium`, `Low` from `types.ts`. -/
inductive Priority where
  | High
  | Medium
  | Low
deriving DecidableEq, Repr, BEq

/-- The `Status` string union `Todo`, `In Progress`, `Done` from `types.ts`. -/
inductive Status where
  | Todo
  | InProgress
  | Done
deriving DecidableEq, Repr, BEq

/-- The `Task` interface from `types.ts`; timestamps as epoch milliseconds. -/
structure Task where
  id : String
  title : String
  revenue : ℚ
  timeTaken : ℚ
  priority : Priority
  status : Status
  notes : Option String
  createdAt : ℤ
  completedAt : Option ℤ
deriving DecidableEq, Repr

/-- The `DerivedTask` interface: all `Task` fields plus `roi` and
`priorityWeight`. -/
structure DerivedTask where
  id : String
  title : String
  revenue : ℚ
  timeTaken : ℚ
  priority : Priority
  status : Status
  notes : Option String
  createdAt : ℤ
  completedAt : Option ℤ
  roi : ℚ
  priorityWeight : ℕ
deriving DecidableEq, Repr

/-- Function `computeROI` from `logic.ts`: `0` unless both inputs are finite and
`timeTaken > 0`, otherwise `Number((revenue / timeTaken).toFixed(2))`. -/
def computeROI (revenue timeTaken : JSNum) : ℚ :=
  if !revenue.isFinite || !timeTaken.isFinite || timeTaken.leZero then 0
  else toFixed2 (revenue.toQ / timeTaken.toQ)

/-- Function `computePriorityWeight` from `logic.ts`. -/
def computePriorityWeight (p : Priority) : ℕ :=
  if p = Priority.High then 3 else if p = Priority.Medium then 2 else 1

/-- Function `withDerived` from `logic.ts`: spreads the fields of the task into a new record
and attaches `roi` and `priorityWeight` (the input record is not mutated). -/
def withDerived (task : Task) : DerivedTask :=
  { id := task.id
    title := task.title
    revenue := task.revenue
    timeTaken := task.timeTaken
    priority := task.priority
    status := task.status
    notes := task.notes
    createdAt := task.createdAt
    completedAt := task.completedAt
    roi := computeROI (JSNum.finite task.revenue) (JSNum.finite task.timeTaken)
    priorityWeight := computePriorityWeight task.priority }

/-- Discarding the two derived fields of a `DerivedTask`, keeping every `Task`
field. -/
def eraseDerived (d : DerivedTask) : Task :=
  { id := d.id
    title := d.title
    revenue := d.revenue
    timeTaken := d.timeTaken
    priority := d.priority
    status := d.status
    notes := d.notes
    createdAt := d.createdAt
    completedAt := d.completedAt }

/-- The numeric comparator passed to `sort` in `sortTasks`: descending `roi`,
then descending `priorityWeight`, then ascending `createdAt` (millisecond
difference of the parsed dates). -/
def jsCompare (a b : DerivedTask) : ℚ :=
  if b.roi ≠ a.roi then b.roi - a.roi
  else if b.priorityWeight ≠ a.priorityWeight then
    (b.priorityWeight : ℚ) - (a.priorityWeight : ℚ)
  else (a.createdAt : ℚ) - (b.createdAt : ℚ)

/-- Relation `jsCompare a b ≤ 0`: the order in which the stable JS sort lays out the
list. -/
def taskLE (a b : DerivedTask) : Bool := decide (jsCompare a b ≤ 0)

/-- Function `sortTasks` from `logic.ts`: a stable sort of a copy of the input by the
comparator (`[...tasks].sort(...)`; the input array is not mutated). -/
def sortTasks (tasks : List DerivedTask) : List DerivedTask :=
  tasks.mergeSort taskLE

/-- Function `computeTotalRevenue` from `logic.ts`. -/
def computeTotalRevenue (tasks : List Task) : ℚ :=
  ((tasks.filter fun t => decide (t.status = Status.Done)).map Task.revenue).sum

/-- Function `computeTimeEfficiency` from `logic.ts`:
`(count Done / count all) * 100`, `0` on the empty list. -/
def computeTimeEfficiency (tasks : List Task) : ℚ :=
  if tasks.length = 0 then 0
  else (((tasks.filter fun t => decide (t.status = Status.Done)).length : ℚ) /
    (tasks.length : ℚ)) * 100

/-- Function `computeAverageROI` from `logic.ts`. -/
def computeAverageROI (tasks : List Task) : ℚ :=
  if tasks.length = 0 then 0
  else toFixed2
    ((tasks.map fun t =>
      computeROI (JSNum.finite t.revenue) (JSNum.finite t.timeTaken)).sum /
     (tasks.length : ℚ))

/-- Function `computePerformanceGrade` from `logic.ts`. -/
def computePerformanceGrade (avg : ℚ) : String :=
  if avg > 500 then "Excellent"
  else if avg ≥ 200 then "Good"
  else "Needs Improvement"

/-- The `FunnelCounts` record from `logic.ts`. -/
structure FunnelCounts where
  todo : ℕ
  inProgress : ℕ
  done : ℕ
  conversionTodoToInProgress : ℚ
  conversionInProgressToDone : ℚ
deriving DecidableEq, Repr

/-- Function `computeFunnel` from `logic.ts`; the JS truthiness guards `base ? _ : 0`
and `inProgress ? _ : 0` become explicit zero tests. -/
def computeFunnel (tasks : List Task) : FunnelCounts :=
  let todo := (tasks.filter fun t => decide (t.status = Status.Todo)).length
  let inProgress := (tasks.filter fun t => decide (t.status = Status.InProgress)).length
  let done := (tasks.filter fun t => decide (t.status = Status.Done)).length
  let base := todo + inProgress + done
  { todo := todo
    inProgress := inProgress
    done := done
    conversionTodoToInProgress :=
      if base ≠ 0 then ((inProgress : ℚ) + (done : ℚ)) / (base : ℚ) else 0
    conversionInProgressToDone :=
      if inProgress ≠ 0 then (done : ℚ) / (inProgress : ℚ) else 0 }

/-- Function `daysBetween` from `logic.ts`:
`Math.max(0, Math.round((b - a) / 86400000))` on the parsed instants. -/
def daysBetween (a b : ℤ) : ℤ :=
  max 0 (jsRound (((b - a : ℤ) : ℚ) / (24 * 60 * 60 * 1000)))

/-- Per-priority velocity statistics record. -/
structure VelocityStat where
  avgDays : ℚ
  medianDays : ℚ
deriving DecidableEq, Repr

/-- The three duration buckets built by `computeVelocityByPriority`. -/
structure VelocityGroups where
  high : List ℤ
  medium : List ℤ
  low : List ℤ
deriving Repr

/-- Push a duration onto the bucket of the given priority (JS `push`). -/
def pushDuration (g : VelocityGroups) (p : Priority) (v : ℤ) : VelocityGroups :=
  match p with
  | .High => { g with high := g.high ++ [v] }
  | .Medium => { g with medium := g.medium ++ [v] }
  | .Low => { g with low := g.low ++ [v] }

/-- One step of the `tasks.forEach` loop of `computeVelocityByPriority`:
tasks without `completedAt` are skipped entirely. -/
def velocityStep (g : VelocityGroups) (t : Task) : VelocityGroups :=
  match t.completedAt with
  | some c => pushDuration g t.priority (daysBetween t.createdAt c)
  | none => g

/-- The `tasks.forEach` accumulation loop of `computeVelocityByPriority`. -/
def velocityGroups (tasks : List Task) : VelocityGroups :=
  tasks.foldl velocityStep ⟨[], [], []⟩

/-- Read the bucket of a priority out of the groups record. -/
def bucketOf (g : VelocityGroups) : Priority → List ℤ
  | .High => g.high
  | .Medium => g.medium
  | .Low => g.low

/-- The per-bucket statistics step of `computeVelocityByPriority`: sort the
bucket ascending (`arr = groups[k].sort((a, b) => a - b)`), keep `{0, 0}` if
it is empty, else report the mean of `arr` and the element of `arr` at index
`⌊arr.length / 2⌋`. -/
def bucketStat (bucket : List ℤ) : VelocityStat :=
  if (bucket.mergeSort fun a b => decide (a ≤ b)).length = 0 then ⟨0, 0⟩
  else
    ⟨(((bucket.mergeSort fun a b => decide (a ≤ b)).map fun (v : ℤ) => (v : ℚ)).sum) /
       (((bucket.mergeSort fun a b => decide (a ≤ b)).length : ℚ)),
     (((bucket.mergeSort fun a b => decide (a ≤ b)).getD
         ((bucket.mergeSort fun a b => decide (a ≤ b)).length / 2) 0 : ℤ) : ℚ)⟩

/-- Function `computeVelocityByPriority` from `logic.ts`, as a function from the
priority key to its statistics record. -/
def computeVelocityByPriority (tasks : List Task) (p : Priority) : VelocityStat :=
  bucketStat (bucketOf (velocityGroups tasks) p)

/-- Days since the Unix epoch of the UTC day containing an instant
(millisecond timestamp), i.e. the `Date.UTC(getUTCFullYear, getUTCMonth,
getUTCDate)` truncation. -/
def epochDays (ms : ℤ) : ℤ := Int.fdiv ms 86400000

/-- Embedding of `Date.prototype.getUTCDay` on a day number: `0 = Sunday … 6 = Saturday`;
day `0` (1970-01-01) was a Thursday. -/
def getUTCDay (days : ℤ) : ℤ := (days + 4) % 7

/-- Proleptic-Gregorian civil date `(year, month, day)` of a day number
(days since 1970-01-01), the computation behind the `getUTC*` accessors. -/
def civilFromDays (z0 : ℤ) : ℤ × ℤ × ℤ :=
  let z := z0 + 719468
  let era := Int.fdiv z 146097
  let doe := (z - era * 146097).toNat
  let yoe := (doe - doe / 1460 + doe / 36524 - doe / 146096) / 365
  let y := (yoe : ℤ) + era * 400
  let doy := doe - (365 * yoe + yoe / 4 - yoe / 100)
  let mp := (5 * doy + 2) / 153
  let d := doy - (153 * mp + 2) / 5 + 1
  let m := if mp < 10 then (mp : ℤ) + 3 else (mp : ℤ) - 9
  (if m ≤ 2 then y + 1 else y, m, (d : ℤ))

/-- Day number (days since 1970-01-01) of a proleptic-Gregorian civil date,
the computation behind `Date.UTC(y, m, d)`. -/
def daysFromCivil (y0 m d : ℤ) : ℤ :=
  let y := if m ≤ 2 then y0 - 1 else y0
  let era := Int.fdiv y 400
  let yoe := (y - era * 400).toNat
  let doy := (153 * (if m > 2 then m - 3 else m + 9).toNat + 2) / 5 + d.toNat - 1
  let doe := yoe * 365 + yoe / 4 - yoe / 100 + doy
  era * 146097 + (doe : ℤ) - 719468

/-- Embedding of `Date.prototype.getUTCFullYear` of an instant. -/
def getUTCFullYear (ms : ℤ) : ℤ := (civilFromDays (epochDays ms)).1

/-- Function `getWeekNumber` from `logic.ts`: shift the date to the Thursday of its
week (Monday-first weekday convention), take `Jan 4` of the year of that Thursday as
`firstThursday`, and return `1 + Math.round` of the difference in weeks.
The millisecond quotient of the source divides out to a difference in days
over `7` because both instants are UTC midnights. -/
def getWeekNumber (ms : ℤ) : ℤ :=
  let target := epochDays ms
  let dayNr := (getUTCDay target + 6) % 7
  let shifted := target - dayNr + 3
  let firstThursday := daysFromCivil (civilFromDays shifted).1 1 4
  1 + jsRound (((shifted - firstThursday : ℤ) : ℚ) / 7)

/-- The week key `` `${d.getUTCFullYear()}-W${getWeekNumber(d)}` `` built by
`computeThroughputByWeek`. -/
def weekKey (ms : ℤ) : String :=
  toString (getUTCFullYear ms) ++ "-W" ++ toString (getWeekNumber ms)

/-- One entry of the throughput list: `{ week, count, revenue }`. -/
structure WeekEntry where
  week : String
  count : ℕ
  revenue : ℚ
deriving DecidableEq, Repr

/-- Update of the insertion-ordered week map: bump an existing entry in place
or append a fresh `{count 1, revenue r}` entry at the end. -/
def bumpWeek : List WeekEntry → String → ℚ → List WeekEntry
  | [], w, r => [⟨w, 1, r⟩]
  | e :: rest, w, r =>
    if e.week = w then ⟨e.week, e.count + 1, e.revenue + r⟩ :: rest
    else e :: bumpWeek rest w r

/-- Function `computeThroughputByWeek` from `logic.ts`: completed tasks, bucketed under
`weekKey completedAt` in first-insertion order. -/
def computeThroughputByWeek (tasks : List Task) : List WeekEntry :=
  tasks.foldl
    (fun acc t =>
      match t.completedAt with
      | some c => bumpWeek acc (weekKey c) t.revenue
      | none => acc)
    []

/-- The status weights of `computeWeightedPipeline`. -/
def statusWeight : Status → ℚ
  | .Todo => 1 / 10
  | .InProgress => 1 / 2
  | .Done => 1

/-- Function `computeWeightedPipeline` from `logic.ts`. -/
def computeWeightedPipeline (tasks : List Task) : ℚ :=
  (tasks.map fun t => t.revenue * statusWeight t.status).sum

/-- One `{ week, revenue }` point of the forecast input and output. -/
structure ForecastPoint where
  week : String
  revenue : ℚ
deriving DecidableEq, Repr

/-- The index axis `x = weekly.map((_, i) => i)` of `computeForecast`. -/
def forecastXs (weekly : List ForecastPoint) : List ℚ :=
  (List.range weekly.length).map fun (i : ℕ) => (i : ℚ)

/-- The revenue axis `y = weekly.map(w => w.revenue)` of `computeForecast`. -/
def forecastYs (weekly : List ForecastPoint) : List ℚ :=
  weekly.map ForecastPoint.revenue

/-- Aggregate `sumX` of `computeForecast`. -/
def forecastSumX (weekly : List ForecastPoint) : ℚ := (forecastXs weekly).sum

/-- Aggregate `sumY` of `computeForecast`. -/
def forecastSumY (weekly : List ForecastPoint) : ℚ := (forecastYs weekly).sum

/-- Aggregate `sumXY` of `computeForecast`: `x.reduce((s, v, i) => s + v * y[i], 0)`. -/
def forecastSumXY (weekly : List ForecastPoint) : ℚ :=
  (((forecastXs weekly).zip (forecastYs weekly)).map fun p => p.1 * p.2).sum

/-- Aggregate `sumXX` of `computeForecast`. -/
def forecastSumXX (weekly : List ForecastPoint) : ℚ :=
  ((forecastXs weekly).map fun v => v * v).sum

/-- The `slope` const of `computeForecast`:
`(n * sumXY - sumX * sumY) / (n * sumXX - sumX * sumX || 1)`, where
`n = x.length` and the JS `|| 1` turns a zero denominator into `1`. -/
def forecastSlope (weekly : List ForecastPoint) : ℚ :=
  (((forecastXs weekly).length : ℚ) * forecastSumXY weekly -
    forecastSumX weekly * forecastSumY weekly) /
  (if ((forecastXs weekly).length : ℚ) * forecastSumXX weekly -
      forecastSumX weekly * forecastSumX weekly = 0 then 1
   else ((forecastXs weekly).length : ℚ) * forecastSumXX weekly -
      forecastSumX weekly * forecastSumX weekly)

/-- The `intercept` const of `computeForecast`: `(sumY - slope * sumX) / n`. -/
def forecastIntercept (weekly : List ForecastPoint) : ℚ :=
  (forecastSumY weekly - forecastSlope weekly * forecastSumX weekly) /
  ((forecastXs weekly).length : ℚ)

/-- Function `computeForecast` from `logic.ts`: ordinary least squares of revenue
against the index `x = 0 … n-1`, then `horizonWeeks` points `"+1" …
"+horizon"`, each `revenue = max 0 (slope * (lastIndex + i + 1) + intercept)`
with `lastIndex = x[x.length - 1]`. -/
def computeForecast (weekly : List ForecastPoint) (horizonWeeks : ℕ) : List ForecastPoint :=
  if weekly.length < 2 then []
  else
    (List.range horizonWeeks).map fun (i : ℕ) =>
      ⟨"+" ++ toString (i + 1),
       max 0 (forecastSlope weekly *
          ((forecastXs weekly).getD ((forecastXs weekly).length - 1) 0 + (i : ℚ) + 1) +
        forecastIntercept weekly)⟩

/-- The number of tasks holding a given status. -/
def countStatus (tasks : List Task) (s : Status) : ℕ :=
  (tasks.filter fun t => decide (t.status = s)).length

/-- The concrete funnel example: 2 Todo, 3 In Progress, 5 Done tasks. -/
def funnelExample : List Task :=
  List.replicate 2 ⟨"a", "t", 0, 0, Priority.Low, Status.Todo, none, 0, none⟩ ++
  List.replicate 3 ⟨"b", "t", 0, 0, Priority.Low, Status.InProgress, none, 0, none⟩ ++
  List.replicate 5 ⟨"c", "t", 0, 0, Priority.Low, Status.Done, none, 0, none⟩

/-- The durations the claim says `computeVelocityByPriority` collects for a
priority: `daysBetween createdAt completedAt` over the tasks of that priority
that have a `completedAt`, in task order. -/
def collectedDurations (tasks : List Task) (p : Priority) : List ℤ :=
  tasks.filterMap fun t =>
    match t.completedAt with
    | some c => if t.priority = p then some (daysBetween t.createdAt c) else none
    | none => none

/-- The ISO-8601 week-year of an instant, per the claim: the calendar year of
the Thursday of the week of the date (Monday-first convention), which is the
year the first-Thursday rule assigns the week to. -/
def specISOWeekYear (ms : ℤ) : ℤ :=
  (civilFromDays (epochDays ms - (getUTCDay (epochDays ms) + 6) % 7 + 3)).1

/-!
Theorems settling the claims.
-/

/-- C8: `withDerived` followed by discarding `roi` and `priorityWeight`
reproduces the original task field for field; as a pure function it cannot
mutate its input. -/
theorem withDerived_roundTrip (task : Task) : eraseDerived (withDerived task) = task := rfl

/-- C5: `computePerformanceGrade` returns `"Excellent"` exactly on averages
strictly above `500`, `"Good"` exactly on `[200, 500]`, and
`"Needs Improvement"` otherwise; in particular `500 ↦ Good`,
`500.01 ↦ Excellent`, `200 ↦ Good`, `199.99 ↦ Needs Improvement`. -/
theorem computePerformanceGrade_spec (avg : ℚ) :
    (computePerformanceGrade avg = "Excellent" ↔ 500 < avg) ∧
    (computePerformanceGrade avg = "Good" ↔ 200 ≤ avg ∧ avg ≤ 500) ∧
    (computePerformanceGrade avg = "Needs Improvement" ↔ avg < 200) ∧
    computePerformanceGrade 500 = "Good" ∧
    computePerformanceGrade 500.01 = "Excellent" ∧
    computePerformanceGrade 200 = "Good" ∧
    computePerformanceGrade 199.99 = "Needs Improvement" := by
  refine ⟨?_, ?_, ?_, by norm_num [computePerformanceGrade],
    by norm_num [computePerformanceGrade], by norm_num [computePerformanceGrade],
    by norm_num [computePerformanceGrade]⟩ <;>
    · unfold computePerformanceGrade
      split_ifs with h1 h2 <;> simp_all <;> linarith

/-- A witness for C5 at the concrete boundary input `500`. -/
theorem computePerformanceGrade_spec_witness :
    computePerformanceGrade 500 = "Good" :=
  (computePerformanceGrade_spec 500).2.1.mpr (by norm_num)

/-- C2: `computeROI` returns `0` whenever an operand is non-finite or
`timeTaken ≤ 0`; otherwise it returns `revenue / timeTaken` rounded to exactly
two decimal places (a multiple of `1/100` within `1/200` of the quotient).
It is a total function, so it never raises; `computeROI 100 4 = 25` and
`computeROI 0 5 = 0`. -/
theorem computeROI_spec (r t : JSNum) :
    (r.isFinite = false ∨ t.isFinite = false ∨ t.leZero = true → computeROI r t = 0) ∧
    (r.isFinite = true → t.isFinite = true → t.leZero = false →
      computeROI r t = (⌊r.toQ / t.toQ * 100 + 1 / 2⌋ : ℚ) / 100 ∧
      |r.toQ / t.toQ - computeROI r t| ≤ 1 / 200) ∧
    computeROI (JSNum.finite 100) (JSNum.finite 4) = 25 ∧
    computeROI (JSNum.finite 0) (JSNum.finite 5) = 0 := by
  refine ⟨?_, ?_,
    by norm_num [computeROI, toFixed2, JSNum.toQ, JSNum.isFinite, JSNum.leZero],
    by norm_num [computeROI, toFixed2, JSNum.toQ, JSNum.isFinite, JSNum.leZero]⟩
  · intro h
    unfold computeROI
    rcases h with h | h | h <;> simp [h]
  · intro hr ht hz
    have heq : computeROI r t = (⌊r.toQ / t.toQ * 100 + 1 / 2⌋ : ℚ) / 100 := by
      unfold computeROI toFixed2
      simp [hr, ht, hz]
    refine ⟨heq, ?_⟩
    rw [heq, abs_le]
    have h1 := Int.floor_le (r.toQ / t.toQ * 100 + 1 / 2)
    have h2 := Int.lt_floor_add_one (r.toQ / t.toQ * 100 + 1 / 2)
    constructor <;> linarith

/-- A witness for C2: the zero branch at a `NaN` revenue, and the rounding
branch at `100 / 4`. -/
theorem computeROI_spec_witness :
    computeROI JSNum.nan (JSNum.finite 4) = 0 ∧
    computeROI (JSNum.finite 100) (JSNum.finite 4) =
      (⌊(JSNum.finite 100).toQ / (JSNum.finite 4).toQ * 100 + 1 / 2⌋ : ℚ) / 100 :=
  ⟨(computeROI_spec JSNum.nan (JSNum.finite 4)).1 (Or.inl rfl),
   ((computeROI_spec (JSNum.finite 100) (JSNum.finite 4)).2.1 rfl rfl (by decide)).1⟩

/-- C7: `computeFunnel` counts the three statuses;
`conversionTodoToInProgress = (inProgress + done) / total` with
`total = todo + inProgress + done`, `0` when `total = 0`;
`conversionInProgressToDone = done / inProgress`, `0` when `inProgress = 0`;
on 2 Todo, 3 In Progress, 5 Done the conversions are `0.8` and `5 / 3`. -/
theorem computeFunnel_spec (tasks : List Task) :
    computeFunnel tasks =
      ⟨countStatus tasks Status.Todo, countStatus tasks Status.InProgress,
       countStatus tasks Status.Done,
       if countStatus tasks Status.Todo + countStatus tasks Status.InProgress +
           countStatus tasks Status.Done ≠ 0 then
         ((countStatus tasks Status.InProgress : ℚ) + (countStatus tasks Status.Done : ℚ)) /
           ((countStatus tasks Status.Todo + countStatus tasks Status.InProgress +
             countStatus tasks Status.Done : ℕ) : ℚ)
       else 0,
       if countStatus tasks Status.InProgress ≠ 0 then
         (countStatus tasks Status.Done : ℚ) / (countStatus tasks Status.InProgress : ℚ)
       else 0⟩ ∧
    (computeFunnel funnelExample).conversionTodoToInProgress = 0.8 ∧
    (computeFunnel funnelExample).conversionInProgressToDone = 5 / 3 := by
  have hT : (List.filter (fun t => decide (t.status = Status.Todo)) funnelExample).length = 2 := rfl
  have hI : (List.filter (fun t => decide (t.status = Status.InProgress)) funnelExample).length = 3 := rfl
  have hD : (List.filter (fun t => decide (t.status = Status.Done)) funnelExample).length = 5 := rfl
  refine ⟨rfl, ?_, ?_⟩ <;>
  · simp only [computeFunnel, hT, hI, hD]
    norm_num

/-- C10: `computeTimeEfficiency` always lands in `[0, 100]`: the count of
`Done` tasks never exceeds the total count, and the empty list yields `0`. -/
theorem computeTimeEfficiency_bounds (tasks : List Task) :
    0 ≤ computeTimeEfficiency tasks ∧ computeTimeEfficiency tasks ≤ 100 := by
  unfold computeTimeEfficiency
  split_ifs with h
  · norm_num
  · have hlen : 0 < (tasks.length : ℚ) := by
      have := Nat.pos_of_ne_zero h
      exact_mod_cast this
    have hle : ((tasks.filter fun t => decide (t.status = Status.Done)).length : ℚ) ≤
        (tasks.length : ℚ) := by
      exact_mod_cast List.length_filter_le _ tasks
    have hnn : (0 : ℚ) ≤ ((tasks.filter fun t => decide (t.status = Status.Done)).length : ℚ) := by
      positivity
    constructor
    · positivity
    · rw [div_mul_eq_mul_div, div_le_iff₀ hlen]
      nlinarith

/-- C3: `computeForecast` returns `[]` on fewer than 2 points; otherwise it
returns exactly `horizon` points labeled `"+1" … "+horizon"` with revenue
`max 0 (slope * (n + i) + intercept)` for `i = 0 … horizon-1` (the source value
`lastIndex + i + 1` equals `n + i` since `lastIndex = n - 1`); on the linear
series `[10, 20, 30]` with horizon `2` it predicts revenues `[40, 50]`. -/
theorem computeForecast_spec (weekly : List ForecastPoint) (horizonWeeks : ℕ) :
    computeForecast weekly horizonWeeks =
      (if weekly.length < 2 then [] else
        (List.range horizonWeeks).map fun (i : ℕ) =>
          ⟨"+" ++ toString (i + 1),
           max 0 (forecastSlope weekly * ((weekly.length : ℚ) + (i : ℚ)) +
             forecastIntercept weekly)⟩) ∧
    computeForecast [⟨"w1", 10⟩, ⟨"w2", 20⟩, ⟨"w3", 30⟩] 2 =
      [⟨"+1", 40⟩, ⟨"+2", 50⟩] := by
  constructor
  · unfold computeForecast
    split_ifs with h
    · rfl
    · have hlt : weekly.length - 1 < weekly.length := by omega
      have hlast : (forecastXs weekly).getD ((forecastXs weekly).length - 1) 0 =
          (weekly.length : ℚ) - 1 := by
        have hlen : (forecastXs weekly).length = weekly.length := by
          simp [forecastXs]
        rw [hlen, List.getD_eq_getElem _ _ (by rw [hlen]; omega)]
        simp only [forecastXs, List.getElem_map, List.getElem_range]
        push_cast [Nat.cast_sub (by omega : 1 ≤ weekly.length)]
        ring
      simp only [hlast]
      refine List.map_congr_left fun i hi => ?_
      have harith : (weekly.length : ℚ) - 1 + (i : ℚ) + 1 =
          (weekly.length : ℚ) + (i : ℚ) := by ring
      rw [harith]
  · norm_num [computeForecast, forecastSlope, forecastIntercept, forecastSumX, forecastSumY,
      forecastSumXY, forecastSumXX, forecastXs, forecastYs, List.range_succ]
    decide

/-- Pushing onto the bucket of one priority only changes that bucket. -/
theorem bucketOf_pushDuration (g : VelocityGroups) (q p : Priority) (v : ℤ) :
    bucketOf (pushDuration g q v) p =
      if q = p then bucketOf g p ++ [v] else bucketOf g p := by
  cases q <;> cases p <;> simp [pushDuration, bucketOf]

/-- The fold of `velocityGroups` appends exactly the collected durations. -/
theorem bucketOf_foldl_velocityStep (tasks : List Task) (p : Priority) :
    ∀ g : VelocityGroups,
      bucketOf (tasks.foldl velocityStep g) p = bucketOf g p ++ collectedDurations tasks p := by
  induction tasks with
  | nil => intro g; simp [collectedDurations]
  | cons t ts ih =>
    intro g
    rw [List.foldl_cons, ih (velocityStep g t)]
    unfold velocityStep
    cases hc : t.completedAt with
    | none => simp [hc, collectedDurations, List.filterMap_cons]
    | some c =>
      by_cases hp : t.priority = p <;>
        simp [hc, hp, collectedDurations, List.filterMap_cons, bucketOf_pushDuration]

/-- The bucket `computeVelocityByPriority` builds for a priority is exactly
the collected-durations list. -/
theorem bucketOf_velocityGroups (tasks : List Task) (p : Priority) :
    bucketOf (velocityGroups tasks) p = collectedDurations tasks p := by
  have h := bucketOf_foldl_velocityStep tasks p ⟨[], [], []⟩
  unfold velocityGroups
  rw [h]
  cases p <;> simp [bucketOf]

/-- C6: per priority, `computeVelocityByPriority` collects
`daysBetween createdAt completedAt` only over tasks with a `completedAt`,
reports `avgDays` as the mean of the collected durations and `medianDays` as
the element at index `⌊n / 2⌋` of the ascending-sorted duration list, both `0`
on an empty bucket; the sort is indeed ascending and a permutation, and
`daysBetween a b = max 0 (round ((b - a) / 86400000))`. -/
theorem computeVelocityByPriority_spec (tasks : List Task) (p : Priority) :
    computeVelocityByPriority tasks p =
      (if collectedDurations tasks p = [] then ⟨0, 0⟩
       else
         ⟨(((collectedDurations tasks p).map fun (v : ℤ) => (v : ℚ)).sum) /
            ((collectedDurations tasks p).length : ℚ),
          ((((collectedDurations tasks p).mergeSort fun a b => decide (a ≤ b)).getD
              ((collectedDurations tasks p).length / 2) 0 : ℤ) : ℚ)⟩) ∧
    ((collectedDurations tasks p).mergeSort fun a b => decide (a ≤ b)).Pairwise (· ≤ ·) ∧
    ((collectedDurations tasks p).mergeSort fun a b => decide (a ≤ b)).Perm
      (collectedDurations tasks p) ∧
    ∀ a b : ℤ, daysBetween a b = max 0 ⌊((b - a : ℤ) : ℚ) / 86400000 + 1 / 2⌋ := by
  have hperm := List.mergeSort_perm (collectedDurations tasks p) fun a b => decide (a ≤ b)
  refine ⟨?_, ?_, hperm, ?_⟩
  · have hlen : ((collectedDurations tasks p).mergeSort fun a b => decide (a ≤ b)).length =
        (collectedDurations tasks p).length := hperm.length_eq
    have hsum : (((collectedDurations tasks p).mergeSort fun a b => decide (a ≤ b)).map
        fun (v : ℤ) => (v : ℚ)).sum =
        ((collectedDurations tasks p).map fun (v : ℤ) => (v : ℚ)).sum :=
      (hperm.map fun (v : ℤ) => (v : ℚ)).sum_eq
    unfold computeVelocityByPriority
    rw [bucketOf_velocityGroups]
    unfold bucketStat
    rw [hlen, hsum]
    rcases eq_or_ne (collectedDurations tasks p) [] with hL | hL
    · rw [if_pos (by rw [hL]; rfl), if_pos hL]
    · rw [if_neg (by simpa [List.length_eq_zero] using hL), if_neg hL]
  · have hsorted := @List.sorted_mergeSort ℤ (fun a b => decide (a ≤ b))
      (fun a b c hab hbc =>
        decide_eq_true (le_trans (of_decide_eq_true hab) (of_decide_eq_true hbc)))
      (fun a b => by rcases le_total a b with h | h <;> simp [h])
      (collectedDurations tasks p)
    exact hsorted.imp fun hab => of_decide_eq_true hab
  · intro a b
    unfold daysBetween jsRound
    norm_num

/-- The Boolean sort relation unfolded: `taskLE a b` holds exactly when `a`
precedes-or-ties `b` in the lexicographic order (higher roi, then higher
priority weight, then earlier creation). -/
theorem taskLE_iff (a b : DerivedTask) : taskLE a b = true ↔
    (b.roi < a.roi ∨ (b.roi = a.roi ∧ (b.priorityWeight < a.priorityWeight ∨
      (b.priorityWeight = a.priorityWeight ∧ a.createdAt ≤ b.createdAt)))) := by
  unfold taskLE jsCompare
  rcases eq_or_ne b.roi a.roi with hr | hr
  · rcases eq_or_ne b.priorityWeight a.priorityWeight with hp | hp
    · simp [hr, hp, sub_nonpos]
    · simp only [hr, hp, ne_eq, not_true_eq_false, not_false_eq_true, if_false, if_true,
        decide_eq_true_eq, sub_nonpos, Nat.cast_le, lt_self_iff_false, false_or, true_and,
        false_and, or_false]
      omega
  · simp only [hr, ne_eq, not_false_eq_true, if_true, decide_eq_true_eq, sub_nonpos,
      false_and, or_false]
    exact ⟨fun h => lt_of_le_of_ne h hr, le_of_lt⟩

/-- The sort relation is total. -/
theorem taskLE_total (a b : DerivedTask) : (taskLE a b || taskLE b a) = true := by
  rw [Bool.or_eq_true, taskLE_iff, taskLE_iff]
  rcases lt_trichotomy a.roi b.roi with h | h | h
  · exact Or.inr (Or.inl h)
  · rcases lt_trichotomy a.priorityWeight b.priorityWeight with hp | hp | hp
    · exact Or.inr (Or.inr ⟨h, Or.inl hp⟩)
    · rcases le_total a.createdAt b.createdAt with hc | hc
      · exact Or.inl (Or.inr ⟨h.symm, Or.inr ⟨hp.symm, hc⟩⟩)
      · exact Or.inr (Or.inr ⟨h, Or.inr ⟨hp, hc⟩⟩)
    · exact Or.inl (Or.inr ⟨h.symm, Or.inl hp⟩)
  · exact Or.inl (Or.inl h)

/-- The sort relation is transitive. -/
theorem taskLE_trans (a b c : DerivedTask) (hab : taskLE a b = true)
    (hbc : taskLE b c = true) : taskLE a c = true := by
  rw [taskLE_iff] at hab hbc ⊢
  rcases hab with h1 | ⟨e1, h1⟩
  · rcases hbc with h2 | ⟨e2, _⟩
    · exact Or.inl (h2.trans h1)
    · exact Or.inl (by rw [e2]; exact h1)
  · rcases hbc with h2 | ⟨e2, h2⟩
    · exact Or.inl (by rw [← e1]; exact h2)
    · refine Or.inr ⟨e2.trans e1, ?_⟩
      rcases h1 with p1 | ⟨q1, d1⟩
      · rcases h2 with p2 | ⟨q2, _⟩
        · exact Or.inl (p2.trans p1)
        · exact Or.inl (by rw [q2]; exact p1)
      · rcases h2 with p2 | ⟨q2, d2⟩
        · exact Or.inl (by rw [← q1]; exact p2)
        · exact Or.inr ⟨q2.trans q1, d1.trans d2⟩

/-- C4: `sortTasks` returns a permutation of its input (no element lost, the
input itself untouched) that is pairwise ordered by roi descending, then
priorityWeight descending, then createdAt ascending; hence two tasks with
equal roi and equal priorityWeight always appear with the earlier `createdAt`
first. -/
theorem sortTasks_spec (tasks : List DerivedTask) :
    (sortTasks tasks).Perm tasks ∧
    (sortTasks tasks).Pairwise fun a b =>
      b.roi < a.roi ∨ (b.roi = a.roi ∧ (b.priorityWeight < a.priorityWeight ∨
        (b.priorityWeight = a.priorityWeight ∧ a.createdAt ≤ b.createdAt))) := by
  refine ⟨List.mergeSort_perm tasks taskLE, ?_⟩
  have h := @List.sorted_mergeSort DerivedTask taskLE taskLE_trans taskLE_total tasks
  exact h.imp fun hab => (taskLE_iff _ _).1 hab

/-- C9: `sortTasks` is idempotent: its output is already sorted, and sorting a
sorted list changes nothing. -/
theorem sortTasks_idempotent (tasks : List DerivedTask) :
    sortTasks (sortTasks tasks) = sortTasks tasks :=
  List.mergeSort_of_sorted
    (@List.sorted_mergeSort DerivedTask taskLE taskLE_trans taskLE_total tasks)

/-- C1 (failing part): the instant `1577750400000` is 2019-12-31T00:00:00Z.
Its ISO week is week 1 of ISO week-year 2020 (the Thursday of its week is
2020-01-02), and `getWeekNumber` does return `1`; but the bucket key built by
`computeThroughputByWeek` uses the calendar UTC year of the completion date,
producing `"2019-W1"` where the claimed key is `"2020-W1"`. -/
theorem computeThroughputByWeek_year_bug :
    computeThroughputByWeek
      [⟨"t1", "year boundary", 100, 1, Priority.High, Status.Done, none, 0,
        some 1577750400000⟩] = [⟨"2019-W1", 1, 100⟩] ∧
    getWeekNumber 1577750400000 = 1 ∧
    specISOWeekYear 1577750400000 = 2020 ∧
    getUTCFullYear 1577750400000 = 2019 := by
  have hyear : getUTCFullYear 1577750400000 = 2019 := by decide
  have hiso : specISOWeekYear 1577750400000 = 2020 := by decide
  have hweek : getWeekNumber 1577750400000 = 1 := by
    have hred : getWeekNumber 1577750400000 = 1 + jsRound (((-2 : ℤ) : ℚ) / 7) := rfl
    rw [hred]
    norm_num [jsRound]
  have hkey : weekKey 1577750400000 = "2019-W1" := by
    unfold weekKey
    rw [hyear, hweek]
    decide
  refine ⟨?_, hweek, hiso, hyear⟩
  unfold computeThroughputByWeek
  simp only [List.foldl_cons, List.foldl_nil]
  rw [hkey]
  rfl

end TaskGlitch
